import Mathlib

/-!
Verification of the `EarlyAllocator` bump allocator
(`arceos/modules/bump_allocator/src/lib.rs`).

The allocator is a double-ended bump allocator over one contiguous region:
bytes are allocated forward from `b_pos`, pages backward from `p_pos`.
We embed the Rust code shallowly:

* `usize` is modelled as `Nat`; `usize` subtraction is Lean's truncated
  `Nat` subtraction, and the theorems carry explicit no-underflow /
  no-overflow hypotheses at every site where the two semantics could
  differ (matching the "no arithmetic overflow" assumption of the spec).
* The 64-bit bitwise complement `!mask` of the source is `usize_not`,
  i.e. `(2^64 - 1) - mask`, and `&` is `Nat` bitwise and (`&&&`).
* Rust's `Result<T, AllocError>` is `Except AllocError T`; a method on
  `&mut self` returns the pair (result, updated state), and a failing
  call returns the original state unchanged, exactly like the source.
* The const generic `PAGE_SIZE` is threaded as an explicit `Nat`
  argument of the page-allocator functions.
* The field `end` of the Rust struct is named `end_` because `end` is a
  Lean keyword.
-/

namespace BumpAllocator

/-- One past the largest `usize` value, `2^64` (64-bit target). -/
def USIZE_LIMIT : Nat := 2 ^ 64

/-- The 64-bit bitwise complement, `!x` on `usize` in the source. -/
def usize_not (x : Nat) : Nat := USIZE_LIMIT - 1 - x

/-- The error type of the `allocator` crate as used by this code;
the allocator only ever emits `NoMemory`. -/
inductive AllocError where
  | NoMemory
  deriving DecidableEq

/-- The state of `EarlyAllocator<PAGE_SIZE>`: the four region cursors and
the outstanding byte-allocation counter (fields of the Rust struct). -/
structure EarlyAllocator where
  start : Nat
  end_ : Nat
  b_pos : Nat
  p_pos : Nat
  count : Nat
  deriving DecidableEq

namespace EarlyAllocator

/-- Constructor `EarlyAllocator::new()`: the zeroed, unusable state. -/
def new : EarlyAllocator :=
  { start := 0, end_ := 0, b_pos := 0, p_pos := 0, count := 0 }

/-- Method `BaseAllocator::init`: `start = start_vaddr`,
`end = start + size`, `b_pos = start`, `p_pos = end`, `count = 0`.
The previous state is overwritten entirely. -/
def init (_s : EarlyAllocator) (start_vaddr size : Nat) : EarlyAllocator :=
  { start := start_vaddr
    end_ := start_vaddr + size
    b_pos := start_vaddr
    p_pos := start_vaddr + size
    count := 0 }

/-- Method `BaseAllocator::add_memory`: always
`Err(AllocError::NoMemory)`, state untouched. -/
def add_memory (s : EarlyAllocator) (_start_vaddr _size : Nat) :
    Except AllocError Unit × EarlyAllocator :=
  (Except.error AllocError.NoMemory, s)

/-- The aligned byte cursor computed by `ByteAllocator::alloc`:
`(self.b_pos + align_mask) & !align_mask` with `align_mask = align - 1`. -/
def bytes_new_pos (s : EarlyAllocator) (align : Nat) : Nat :=
  (s.b_pos + (align - 1)) &&& usize_not (align - 1)

/-- Method `ByteAllocator::alloc` for `layout = (size, align)`:
bump `b_pos` forward to the aligned position plus `size` if it still fits
below `p_pos`, else fail leaving the state unchanged.  The returned
address models the `NonNull<u8>` pointer of the source. -/
def alloc (s : EarlyAllocator) (size align : Nat) :
    Except AllocError Nat × EarlyAllocator :=
  let new_pos := bytes_new_pos s align
  let new_end := new_pos + size
  if new_end ≤ s.p_pos then
    (Except.ok new_pos, { s with b_pos := new_end, count := s.count + 1 })
  else
    (Except.error AllocError.NoMemory, s)

/-- Method `ByteAllocator::dealloc`: `// Do nothing for now`. -/
def dealloc (s : EarlyAllocator) (_pos _size _align : Nat) : EarlyAllocator :=
  s

/-- Method `ByteAllocator::total_bytes`: `end - start`. -/
def total_bytes (s : EarlyAllocator) : Nat := s.end_ - s.start

/-- Method `ByteAllocator::used_bytes`:
`(b_pos - start) + (end - p_pos)`. -/
def used_bytes (s : EarlyAllocator) : Nat :=
  (s.b_pos - s.start) + (s.end_ - s.p_pos)

/-- Method `ByteAllocator::available_bytes`: `p_pos - b_pos`. -/
def available_bytes (s : EarlyAllocator) : Nat := s.p_pos - s.b_pos

/-- The aligned page-region top computed by `PageAllocator::alloc_pages`:
`(self.p_pos - align_mask) & !align_mask` with `align_mask = align_pow2 - 1`.
(Note: this is the source's exact expression; it is *not* in general
`round_down(p_pos, align_pow2)`.) -/
def pages_new_end (s : EarlyAllocator) (align_pow2 : Nat) : Nat :=
  (s.p_pos - (align_pow2 - 1)) &&& usize_not (align_pow2 - 1)

/-- Method `PageAllocator::alloc_pages`: bump `p_pos` down by
`num_pages * PAGE_SIZE` from the aligned top if it stays at or above
`b_pos`, else fail leaving the state unchanged. -/
def alloc_pages (PAGE_SIZE : Nat) (s : EarlyAllocator)
    (num_pages align_pow2 : Nat) : Except AllocError Nat × EarlyAllocator :=
  let size := num_pages * PAGE_SIZE
  let new_end := pages_new_end s align_pow2
  let new_pos := new_end - size
  if s.b_pos ≤ new_pos then
    (Except.ok new_pos, { s with p_pos := new_pos })
  else
    (Except.error AllocError.NoMemory, s)

/-- Method `PageAllocator::dealloc_pages`: `// Do nothing for now`. -/
def dealloc_pages (s : EarlyAllocator) (_pos _num_pages : Nat) :
    EarlyAllocator :=
  s

/-- Method `PageAllocator::total_pages`: `(end - start) / PAGE_SIZE`. -/
def total_pages (PAGE_SIZE : Nat) (s : EarlyAllocator) : Nat :=
  (s.end_ - s.start) / PAGE_SIZE

/-- Method `PageAllocator::used_pages`:
`((end - p_pos) + PAGE_SIZE - 1) / PAGE_SIZE`. -/
def used_pages (PAGE_SIZE : Nat) (s : EarlyAllocator) : Nat :=
  ((s.end_ - s.p_pos) + PAGE_SIZE - 1) / PAGE_SIZE

/-- Method `PageAllocator::available_pages`:
`(p_pos - b_pos) / PAGE_SIZE`. -/
def available_pages (PAGE_SIZE : Nat) (s : EarlyAllocator) : Nat :=
  (s.p_pos - s.b_pos) / PAGE_SIZE

end EarlyAllocator

open EarlyAllocator

/-- Equality of `Except` results is decidable (needed to evaluate the
allocator on concrete scenarios). -/
instance {ε α : Type} [DecidableEq ε] [DecidableEq α] :
    DecidableEq (Except ε α) := fun a b =>
  match a, b with
  | .ok x, .ok y =>
    if h : x = y then isTrue (by rw [h])
    else isFalse (fun hc => by cases hc; exact h rfl)
  | .ok _, .error _ => isFalse (fun hc => by cases hc)
  | .error _, .ok _ => isFalse (fun hc => by cases hc)
  | .error x, .error y =>
    if h : x = y then isTrue (by rw [h])
    else isFalse (fun hc => by cases hc; exact h rfl)

/-- A successful allocation as recorded along an execution: the returned
address together with the arguments of the call that produced it. -/
inductive Ev where
  | bytes (addr size align : Nat)
  | pages (addr num_pages align_pow2 : Nat)
  deriving DecidableEq

/-- Executions of the allocator: `Reached PAGE_SIZE s log` holds when the
state `s` and the list `log` of successful allocations (newest first) can
arise from one `init` call followed by any sequence of `alloc`, `dealloc`,
`alloc_pages`, `dealloc_pages` and `add_memory` calls.  The accessor
methods take `&self` and are modelled as pure functions, so they cannot
change the state and need no step here.  Every step carries the
assumptions under which the claims are stated: alignment arguments are
powers of two, and no `usize` addition or subtraction in the source
overflows (the spec treats these as caller obligations). -/
inductive Reached (PAGE_SIZE : Nat) : EarlyAllocator → List Ev → Prop where
  | init_step (s0 : EarlyAllocator) (start_vaddr size : Nat)
      (hov : start_vaddr + size < USIZE_LIMIT) :
      Reached PAGE_SIZE (EarlyAllocator.init s0 start_vaddr size) []
  | alloc_ok (s : EarlyAllocator) (log : List Ev) (size align k a : Nat)
      (s' : EarlyAllocator)
      (hr : Reached PAGE_SIZE s log)
      (hk : align = 2 ^ k)
      (h1 : s.b_pos + (align - 1) < USIZE_LIMIT)
      (h2 : bytes_new_pos s align + size < USIZE_LIMIT)
      (heq : alloc s size align = (Except.ok a, s')) :
      Reached PAGE_SIZE s' (Ev.bytes a size align :: log)
  | alloc_err (s : EarlyAllocator) (log : List Ev) (size align k : Nat)
      (e : AllocError) (s' : EarlyAllocator)
      (hr : Reached PAGE_SIZE s log)
      (hk : align = 2 ^ k)
      (h1 : s.b_pos + (align - 1) < USIZE_LIMIT)
      (h2 : bytes_new_pos s align + size < USIZE_LIMIT)
      (heq : alloc s size align = (Except.error e, s')) :
      Reached PAGE_SIZE s' log
  | pages_ok (s : EarlyAllocator) (log : List Ev)
      (num_pages align_pow2 k a : Nat) (s' : EarlyAllocator)
      (hr : Reached PAGE_SIZE s log)
      (hk : align_pow2 = 2 ^ k)
      (h1 : align_pow2 - 1 ≤ s.p_pos)
      (h2 : num_pages * PAGE_SIZE ≤ pages_new_end s align_pow2)
      (heq : alloc_pages PAGE_SIZE s num_pages align_pow2
        = (Except.ok a, s')) :
      Reached PAGE_SIZE s' (Ev.pages a num_pages align_pow2 :: log)
  | pages_err (s : EarlyAllocator) (log : List Ev)
      (num_pages align_pow2 k : Nat) (e : AllocError) (s' : EarlyAllocator)
      (hr : Reached PAGE_SIZE s log)
      (hk : align_pow2 = 2 ^ k)
      (h1 : align_pow2 - 1 ≤ s.p_pos)
      (h2 : num_pages * PAGE_SIZE ≤ pages_new_end s align_pow2)
      (heq : alloc_pages PAGE_SIZE s num_pages align_pow2
        = (Except.error e, s')) :
      Reached PAGE_SIZE s' log
  | dealloc_step (s : EarlyAllocator) (log : List Ev)
      (pos size align : Nat)
      (hr : Reached PAGE_SIZE s log) :
      Reached PAGE_SIZE (dealloc s pos size align) log
  | dealloc_pages_step (s : EarlyAllocator) (log : List Ev)
      (pos num_pages : Nat)
      (hr : Reached PAGE_SIZE s log) :
      Reached PAGE_SIZE (dealloc_pages s pos num_pages) log
  | add_memory_step (s : EarlyAllocator) (log : List Ev)
      (start_vaddr size : Nat)
      (hr : Reached PAGE_SIZE s log) :
      Reached PAGE_SIZE (add_memory s start_vaddr size).2 log

/-- Ordering between a newer event (first argument) and an older one:
byte extents grow upward, so every older byte extent ends at or before a
newer byte address; page extents grow downward, so every newer page
extent ends at or before an older page address. -/
def pairOrdered (PAGE_SIZE : Nat) : Ev → Ev → Prop
  | Ev.bytes a _ _, Ev.bytes a' sz' _ => a' + sz' ≤ a
  | Ev.pages a np _, Ev.pages a' _ _ => a + np * PAGE_SIZE ≤ a'
  | _, _ => True

/-- The inductive invariant of the allocator: cursor ordering, 64-bit
bounds, containment of all logged extents in their sub-region, and the
ordering of the log. -/
structure Good (PAGE_SIZE : Nat) (s : EarlyAllocator) (log : List Ev) :
    Prop where
  h1 : s.start ≤ s.b_pos
  h2 : s.b_pos ≤ s.p_pos
  h3 : s.p_pos ≤ s.end_
  h4 : s.end_ < USIZE_LIMIT
  hbytes : ∀ a sz al, Ev.bytes a sz al ∈ log →
    s.start ≤ a ∧ a + sz ≤ s.b_pos ∧ al ∣ a
  hpages : ∀ a np al, Ev.pages a np al ∈ log →
    s.p_pos ≤ a ∧ a + np * PAGE_SIZE ≤ s.end_ ∧
      al ∣ (a + np * PAGE_SIZE)
  hpw : List.Pairwise (pairOrdered PAGE_SIZE) log

/-- The spec's `round_up(pos, align)` (least multiple of `align` at or
above `pos`, for `align ≥ 1`), written from the spec's words so the
code's bit computation can be compared against it. -/
def spec_round_up (x align : Nat) : Nat := (x + align - 1) / align * align

/-- The spec's `round_down(pos, align)` (greatest multiple of `align`
at or below `pos`), written from the spec's words so the code's bit
computation can be compared against it. -/
def spec_round_down (x align : Nat) : Nat := x / align * align

/-- The spec's `ceil(a / b)`, written independently of the code's
`(a + b - 1) / b` expression. -/
def spec_ceil_div (a b : Nat) : Nat := a / b + (if a % b = 0 then 0 else 1)

/-- The initialized state of the spec's Scenario 1:
`init(0x1000, 0x1000)`. -/
def demo : EarlyAllocator := EarlyAllocator.init EarlyAllocator.new 0x1000 0x1000

/-- One `dealloc` or `dealloc_pages` call, as an element of an arbitrary
call sequence. -/
inductive DeallocCall where
  | bytes (pos size align : Nat)
  | pages (pos num_pages : Nat)

/-- Run a sequence of `dealloc` / `dealloc_pages` calls in order. -/
def run_deallocs (s : EarlyAllocator) : List DeallocCall → EarlyAllocator
  | [] => s
  | DeallocCall.bytes p sz al :: rest => run_deallocs (dealloc s p sz al) rest
  | DeallocCall.pages p np :: rest => run_deallocs (dealloc_pages s p np) rest

/-- The address where a recorded allocation starts. -/
def evStart : Ev → Nat
  | Ev.bytes a _ _ => a
  | Ev.pages a _ _ => a

/-- One past the last address of a recorded allocation's extent. -/
def evEnd (PAGE_SIZE : Nat) : Ev → Nat
  | Ev.bytes a sz _ => a + sz
  | Ev.pages a np _ => a + np * PAGE_SIZE

/-- Two recorded extents occupy disjoint address ranges. -/
def extDisj (PAGE_SIZE : Nat) (e e' : Ev) : Prop :=
  evEnd PAGE_SIZE e ≤ evStart e' ∨ evEnd PAGE_SIZE e' ≤ evStart e

/-- Claim C4 exactly as stated: every address returned by a successful
`alloc` lies within `[start, end)`, is a multiple of the requested
align, and its extent is disjoint from every other recorded extent. -/
def C4_stated : Prop :=
  ∀ (PAGE_SIZE : Nat) (s : EarlyAllocator) (log : List Ev),
    Reached PAGE_SIZE s log →
    ∀ a sz al, Ev.bytes a sz al ∈ log →
      (s.start ≤ a ∧ a < s.end_) ∧ al ∣ a ∧
      ∀ e' ∈ log, e' ≠ Ev.bytes a sz al →
        extDisj PAGE_SIZE (Ev.bytes a sz al) e'

/-- Strict decrease of page-allocation addresses in call order (the log
stores the newest event first). -/
def pagesDecr : Ev → Ev → Prop
  | Ev.pages a _ _, Ev.pages a' _ _ => a < a'
  | _, _ => True

/-- Claim C6 exactly as stated: successful `alloc_pages` calls (each
with `num_pages ≥ 1` and a power-of-two `align_pow2`) return strictly
decreasing addresses, each a multiple of `PAGE_SIZE` and of the
`align_pow2` requested in its own call. -/
def C6_stated : Prop :=
  ∀ (PAGE_SIZE : Nat) (s : EarlyAllocator) (log : List Ev),
    Reached PAGE_SIZE s log → 1 ≤ PAGE_SIZE →
    (∀ a np al, Ev.pages a np al ∈ log → 1 ≤ np) →
    List.Pairwise pagesDecr log ∧
    ∀ a np al, Ev.pages a np al ∈ log → PAGE_SIZE ∣ a ∧ al ∣ a

theorem usize_not_two_pow_sub_one (k : Nat) :
    usize_not (2 ^ k - 1) = USIZE_LIMIT - 2 ^ k := by
  have h1 : 1 ≤ 2 ^ k := Nat.one_le_two_pow
  unfold usize_not USIZE_LIMIT
  omega

/-- Masking a 64-bit value with the complement of `2^k - 1` clears its
low `k` bits: `x &&& !(2^k - 1) = x / 2^k * 2^k`. -/
theorem land_mask_eq (x k : Nat) (hx : x < USIZE_LIMIT) :
    x &&& (USIZE_LIMIT - 2 ^ k) = x / 2 ^ k * 2 ^ k := by
  rcases le_or_lt k 64 with hk | hk
  · have hmask : USIZE_LIMIT - 2 ^ k = (2 ^ (64 - k) - 1) <<< k := by
      rw [Nat.shiftLeft_eq]
      have h1 : (2 : Nat) ^ (64 - k) * 2 ^ k = 2 ^ 64 := by
        rw [← pow_add]
        congr 1
        omega
      have h3 : USIZE_LIMIT = 2 ^ 64 := rfl
      rw [Nat.sub_one_mul, h1, h3]
    have hdiv : x / 2 ^ k * 2 ^ k = (x >>> k) <<< k := by
      rw [Nat.shiftRight_eq_div_pow, Nat.shiftLeft_eq]
    rw [hmask, hdiv]
    apply Nat.eq_of_testBit_eq
    intro i
    rw [Nat.testBit_land, Nat.testBit_shiftLeft, Nat.testBit_shiftLeft,
      Nat.testBit_shiftRight, Nat.testBit_two_pow_sub_one]
    rcases Nat.lt_or_ge i k with hik | hik
    · simp [Nat.not_le_of_lt hik]
    · rcases Nat.lt_or_ge i 64 with hi64 | hi64
      · have hlt : i - k < 64 - k := by omega
        simp [hik, hlt, Nat.add_sub_cancel' hik]
      · have hxbit : x.testBit i = false := by
          apply Nat.testBit_lt_two_pow
          calc x < 2 ^ 64 := hx
            _ ≤ 2 ^ i := Nat.pow_le_pow_right (by omega) hi64
        have hnlt : ¬ (i - k < 64 - k) := by omega
        simp [hxbit, hnlt, Nat.add_sub_cancel' hik]
  · have h1 : (2 : Nat) ^ 64 ≤ 2 ^ k := Nat.pow_le_pow_right (by omega) (by omega)
    have h2 : USIZE_LIMIT - 2 ^ k = 0 := by
      have h3 : USIZE_LIMIT = 2 ^ 64 := rfl
      omega
    have h4 : x / 2 ^ k = 0 := Nat.div_eq_of_lt (by
      have h3 : USIZE_LIMIT = 2 ^ 64 := rfl
      omega)
    rw [h2, h4]
    simp

/-- For a power-of-two `align` and no 64-bit overflow, the source's
`(b_pos + align_mask) & !align_mask` equals the arithmetic round-up
numerator divided and re-multiplied by `align`. -/
theorem bytes_new_pos_eq (s : EarlyAllocator) (align k : Nat)
    (hk : align = 2 ^ k) (h : s.b_pos + (align - 1) < USIZE_LIMIT) :
    bytes_new_pos s align = (s.b_pos + (align - 1)) / align * align := by
  subst hk
  unfold bytes_new_pos
  rw [usize_not_two_pow_sub_one, land_mask_eq _ _ h]

theorem bytes_new_pos_ge (s : EarlyAllocator) (align k : Nat)
    (hk : align = 2 ^ k) (h : s.b_pos + (align - 1) < USIZE_LIMIT) :
    s.b_pos ≤ bytes_new_pos s align := by
  rw [bytes_new_pos_eq s align k hk h]
  have ha : 1 ≤ align := by
    subst hk
    exact Nat.one_le_two_pow
  have hmod := Nat.mod_add_div (s.b_pos + (align - 1)) align
  have hmlt : (s.b_pos + (align - 1)) % align < align :=
    Nat.mod_lt _ (by omega)
  have hcomm : (s.b_pos + (align - 1)) / align * align
      = align * ((s.b_pos + (align - 1)) / align) := Nat.mul_comm _ _
  omega

theorem bytes_new_pos_dvd (s : EarlyAllocator) (align k : Nat)
    (hk : align = 2 ^ k) (h : s.b_pos + (align - 1) < USIZE_LIMIT) :
    align ∣ bytes_new_pos s align := by
  rw [bytes_new_pos_eq s align k hk h]
  exact dvd_mul_left align _

/-- For a power-of-two `align`, the source's aligned page-region top
`(p_pos - align_mask) & !align_mask` in arithmetic form. -/
theorem pages_new_end_eq (s : EarlyAllocator) (align k : Nat)
    (hk : align = 2 ^ k) (h : s.p_pos < USIZE_LIMIT) :
    pages_new_end s align = (s.p_pos - (align - 1)) / align * align := by
  subst hk
  unfold pages_new_end
  rw [usize_not_two_pow_sub_one,
    land_mask_eq _ _ (lt_of_le_of_lt (Nat.sub_le _ _) h)]

theorem pages_new_end_le (s : EarlyAllocator) (align k : Nat)
    (hk : align = 2 ^ k) (h : s.p_pos < USIZE_LIMIT) :
    pages_new_end s align ≤ s.p_pos := by
  rw [pages_new_end_eq s align k hk h]
  exact le_trans (Nat.div_mul_le_self _ _) (Nat.sub_le _ _)

theorem pages_new_end_dvd (s : EarlyAllocator) (align k : Nat)
    (hk : align = 2 ^ k) (h : s.p_pos < USIZE_LIMIT) :
    align ∣ pages_new_end s align := by
  rw [pages_new_end_eq s align k hk h]
  exact dvd_mul_left align _

/-- Every reachable configuration satisfies the inductive invariant. -/
theorem reached_good {PAGE_SIZE : Nat} {s : EarlyAllocator} {log : List Ev}
    (h : Reached PAGE_SIZE s log) : Good PAGE_SIZE s log := by
  induction h with
  | init_step s0 start_vaddr size hov =>
      refine ⟨Nat.le_refl _, Nat.le_add_right _ _, Nat.le_refl _, hov,
        ?_, ?_, List.Pairwise.nil⟩
      · intro a sz al hmem
        cases hmem
      · intro a np al hmem
        cases hmem
  | alloc_ok s log size align k a s' hr hk h1 h2 heq ih =>
      by_cases hg : bytes_new_pos s align + size ≤ s.p_pos
      · simp only [alloc] at heq
        rw [if_pos hg] at heq
        injection heq with hfst hsnd
        injection hfst with ha
        subst ha
        subst hsnd
        have hup : s.b_pos ≤ bytes_new_pos s align :=
          bytes_new_pos_ge s align k hk h1
        have hdv : align ∣ bytes_new_pos s align :=
          bytes_new_pos_dvd s align k hk h1
        refine ⟨?_, hg, ih.h3, ih.h4, ?_, ?_, ?_⟩
        · exact le_trans ih.h1 (le_trans hup (Nat.le_add_right _ _))
        · intro a' sz' al' hmem
          rcases List.mem_cons.mp hmem with hm | hm
          · injection hm with e1 e2 e3
            subst e1; subst e2; subst e3
            exact ⟨le_trans ih.h1 hup, Nat.le_refl _, hdv⟩
          · obtain ⟨hs1, hs2, hs3⟩ := ih.hbytes a' sz' al' hm
            refine ⟨hs1, ?_, hs3⟩
            show a' + sz' ≤ bytes_new_pos s align + size
            omega
        · intro a' np' al' hmem
          rcases List.mem_cons.mp hmem with hm | hm
          · injection hm
          · exact ih.hpages a' np' al' hm
        · refine List.Pairwise.cons ?_ ih.hpw
          intro e' he'
          cases e' with
          | bytes a' sz' al' =>
              have hb := (ih.hbytes a' sz' al' he').2.1
              simp only [pairOrdered]
              omega
          | pages a' np' al' => trivial
      · simp only [alloc] at heq
        rw [if_neg hg] at heq
        injection heq with hfst hsnd
        injection hfst
  | alloc_err s log size align k e s' hr hk h1 h2 heq ih =>
      by_cases hg : bytes_new_pos s align + size ≤ s.p_pos
      · simp only [alloc] at heq
        rw [if_pos hg] at heq
        injection heq with hfst hsnd
        injection hfst
      · simp only [alloc] at heq
        rw [if_neg hg] at heq
        injection heq with hfst hsnd
        subst hsnd
        exact ih
  | pages_ok s log num_pages align_pow2 k a s' hr hk h1 h2 heq ih =>
      by_cases hg :
          s.b_pos ≤ pages_new_end s align_pow2 - num_pages * PAGE_SIZE
      · simp only [alloc_pages] at heq
        rw [if_pos hg] at heq
        injection heq with hfst hsnd
        injection hfst with ha
        subst ha
        subst hsnd
        have hplim : s.p_pos < USIZE_LIMIT := lt_of_le_of_lt ih.h3 ih.h4
        have hle : pages_new_end s align_pow2 ≤ s.p_pos :=
          pages_new_end_le s align_pow2 k hk hplim
        have hdv : align_pow2 ∣ pages_new_end s align_pow2 :=
          pages_new_end_dvd s align_pow2 k hk hplim
        have hsum : pages_new_end s align_pow2 - num_pages * PAGE_SIZE
            + num_pages * PAGE_SIZE = pages_new_end s align_pow2 := by
          omega
        refine ⟨ih.h1, hg, ?_, ih.h4, ?_, ?_, ?_⟩
        · show pages_new_end s align_pow2 - num_pages * PAGE_SIZE ≤ s.end_
          have hpe := ih.h3
          omega
        · intro a' sz' al' hmem
          rcases List.mem_cons.mp hmem with hm | hm
          · injection hm
          · exact ih.hbytes a' sz' al' hm
        · intro a' np' al' hmem
          rcases List.mem_cons.mp hmem with hm | hm
          · injection hm with e1 e2 e3
            subst e1
            rw [e2, e3]
            refine ⟨Nat.le_refl _, ?_, ?_⟩
            · show pages_new_end s align_pow2 - num_pages * PAGE_SIZE
                + num_pages * PAGE_SIZE ≤ s.end_
              have hpe := ih.h3
              omega
            · rw [hsum]
              exact hdv
          · obtain ⟨hp1, hp2, hp3⟩ := ih.hpages a' np' al' hm
            refine ⟨?_, hp2, hp3⟩
            show pages_new_end s align_pow2 - num_pages * PAGE_SIZE ≤ a'
            omega
        · refine List.Pairwise.cons ?_ ih.hpw
          intro e' he'
          cases e' with
          | bytes a' sz' al' => trivial
          | pages a' np' al' =>
              have hp := (ih.hpages a' np' al' he').1
              simp only [pairOrdered]
              omega
      · simp only [alloc_pages] at heq
        rw [if_neg hg] at heq
        injection heq with hfst hsnd
        injection hfst
  | pages_err s log num_pages align_pow2 k e s' hr hk h1 h2 heq ih =>
      by_cases hg :
          s.b_pos ≤ pages_new_end s align_pow2 - num_pages * PAGE_SIZE
      · simp only [alloc_pages] at heq
        rw [if_pos hg] at heq
        injection heq with hfst hsnd
        injection hfst
      · simp only [alloc_pages] at heq
        rw [if_neg hg] at heq
        injection heq with hfst hsnd
        subst hsnd
        exact ih
  | dealloc_step s log pos size align hr ih => exact ih
  | dealloc_pages_step s log pos num_pages hr ih => exact ih
  | add_memory_step s log start_vaddr size hr ih => exact ih

theorem add_sub_one_div_eq_ceil (a b : Nat) (hb : 1 ≤ b) :
    (a + b - 1) / b = spec_ceil_div a b := by
  have hmod := Nat.mod_add_div a b
  unfold spec_ceil_div
  rcases Nat.eq_zero_or_pos (a % b) with h0 | hpos
  · have h1 : a + b - 1 = b * (a / b) + (b - 1) := by omega
    rw [h1, Nat.mul_add_div (by omega),
      Nat.div_eq_of_lt (show b - 1 < b by omega), if_pos h0]
  · have hmlt : a % b < b := Nat.mod_lt _ (by omega)
    have h1 : a + b - 1 = b * (a / b) + (a % b - 1 + b) := by omega
    rw [h1, Nat.mul_add_div (by omega), Nat.add_div_right _ (by omega),
      Nat.div_eq_of_lt (show a % b - 1 < b by omega), if_neg (by omega)]

/-- C1 (the code evaluated at the spec's Scenario 3): after
`init(0x2000, 0x2000)` with `PAGE_SIZE = 0x1000`, the source's first
`alloc_pages(1, 0x1000)` returns `0x2000` — not `0x3000` — and the
second call already fails; the aligned top it computes,
`(p_pos - align_mask) & !align_mask = 0x3000`, differs from the spec's
`round_down(p_pos, align_pow2) = 0x4000`. -/
theorem c1_pages_divergence :
    (alloc_pages 0x1000
        (EarlyAllocator.init EarlyAllocator.new 0x2000 0x2000) 1 0x1000).1
      = Except.ok 0x2000 ∧
    (alloc_pages 0x1000
        (alloc_pages 0x1000
          (EarlyAllocator.init EarlyAllocator.new 0x2000 0x2000)
          1 0x1000).2 1 0x1000).1
      = Except.error AllocError.NoMemory ∧
    pages_new_end (EarlyAllocator.init EarlyAllocator.new 0x2000 0x2000)
        0x1000 = 0x3000 ∧
    spec_round_down
        (EarlyAllocator.init EarlyAllocator.new 0x2000 0x2000).p_pos
        0x1000 = 0x4000 :=
  ⟨by decide, by decide, by decide, by decide⟩

/-- C2: `alloc(size, align)` computes `new_pos = round_up(b_pos, align)`
and `new_end = new_pos + size`; it succeeds iff `new_end ≤ p_pos`, in
which case it sets `b_pos = new_end`, increments `count` and returns
`new_pos`, and otherwise fails without mutating state (atomicity holds
by construction: the function yields a single new state).  Moreover, in
Scenario 1 (`init(0x1000, 0x1000)`, `PAGE_SIZE = 0x1000`):
`total_bytes() = 4096`, `total_pages() = 1`, `alloc(64, 8)` returns
`0x1000`, after which `used_bytes() = 64` and
`available_bytes() = 4032`. -/
theorem c2_alloc_correct (s : EarlyAllocator) (size align k : Nat)
    (hk : align = 2 ^ k) (hov : s.b_pos + (align - 1) < USIZE_LIMIT) :
    (bytes_new_pos s align = spec_round_up s.b_pos align ∧
      (spec_round_up s.b_pos align + size ≤ s.p_pos →
        alloc s size align
          = (Except.ok (spec_round_up s.b_pos align),
             { s with b_pos := spec_round_up s.b_pos align + size,
                      count := s.count + 1 })) ∧
      (s.p_pos < spec_round_up s.b_pos align + size →
        alloc s size align = (Except.error AllocError.NoMemory, s))) ∧
    (total_bytes demo = 4096 ∧ total_pages 0x1000 demo = 1 ∧
      (alloc demo 64 8).1 = Except.ok 0x1000 ∧
      used_bytes (alloc demo 64 8).2 = 64 ∧
      available_bytes (alloc demo 64 8).2 = 4032) := by
  have ha1 : 1 ≤ align := by
    subst hk
    exact Nat.one_le_two_pow
  have heq : bytes_new_pos s align = spec_round_up s.b_pos align := by
    rw [bytes_new_pos_eq s align k hk hov]
    unfold spec_round_up
    congr 2
    omega
  refine ⟨⟨heq, ?_, ?_⟩, by decide, by decide, by decide, by decide,
    by decide⟩
  · intro hle
    simp only [alloc]
    rw [heq, if_pos hle]
  · intro hgt
    simp only [alloc]
    rw [heq, if_neg (by omega)]

/-- Witness for C2 at `s = demo`, `size = 64`, `align = 8 = 2^3`. -/
theorem c2_alloc_correct_witness :
    ((8 : Nat) = 2 ^ 3 ∧ demo.b_pos + (8 - 1) < USIZE_LIMIT) ∧
    ((bytes_new_pos demo 8 = spec_round_up demo.b_pos 8 ∧
      (spec_round_up demo.b_pos 8 + 64 ≤ demo.p_pos →
        alloc demo 64 8
          = (Except.ok (spec_round_up demo.b_pos 8),
             { demo with b_pos := spec_round_up demo.b_pos 8 + 64,
                         count := demo.count + 1 })) ∧
      (demo.p_pos < spec_round_up demo.b_pos 8 + 64 →
        alloc demo 64 8 = (Except.error AllocError.NoMemory, demo))) ∧
    (total_bytes demo = 4096 ∧ total_pages 0x1000 demo = 1 ∧
      (alloc demo 64 8).1 = Except.ok 0x1000 ∧
      used_bytes (alloc demo 64 8).2 = 64 ∧
      available_bytes (alloc demo 64 8).2 = 4032)) :=
  ⟨⟨rfl, by decide⟩, c2_alloc_correct demo 64 8 3 rfl (by decide)⟩

/-- C3: in every reachable state, `start ≤ b_pos ≤ p_pos ≤ end` and
`available_bytes() + used_bytes() = total_bytes()`. -/
theorem c3_invariant_preserved (PAGE_SIZE : Nat) (s : EarlyAllocator)
    (log : List Ev) (h : Reached PAGE_SIZE s log) :
    (s.start ≤ s.b_pos ∧ s.b_pos ≤ s.p_pos ∧ s.p_pos ≤ s.end_) ∧
    available_bytes s + used_bytes s = total_bytes s := by
  obtain ⟨h1, h2, h3, _, _, _, _⟩ := reached_good h
  refine ⟨⟨h1, h2, h3⟩, ?_⟩
  unfold available_bytes used_bytes total_bytes
  omega

/-- Witness for C3 at the freshly initialized Scenario 1 state. -/
theorem c3_invariant_preserved_witness :
    (demo.start ≤ demo.b_pos ∧ demo.b_pos ≤ demo.p_pos ∧
      demo.p_pos ≤ demo.end_) ∧
    available_bytes demo + used_bytes demo = total_bytes demo :=
  c3_invariant_preserved 0x1000 demo []
    (Reached.init_step EarlyAllocator.new 0x1000 0x1000 (by decide))

/-- Counterexample to C4 as stated: after `init(0x1000, 0x1000)` and a
successful `alloc(0x1000, 1)`, the zero-size call `alloc(0, 1)` succeeds
and returns `0x2000 = end`, which is not within `[start, end)`. -/
theorem c4_counterexample : ¬ C4_stated := by
  intro h
  have hr0 : Reached 0x1000 demo [] :=
    Reached.init_step EarlyAllocator.new 0x1000 0x1000 (by decide)
  have hr1 : Reached 0x1000
      (⟨0x1000, 0x2000, 0x2000, 0x2000, 1⟩ : EarlyAllocator)
      [Ev.bytes 0x1000 0x1000 1] :=
    Reached.alloc_ok demo [] 0x1000 1 0 0x1000
      (⟨0x1000, 0x2000, 0x2000, 0x2000, 1⟩ : EarlyAllocator)
      hr0 rfl (by decide) (by decide) (by decide)
  have hr2 : Reached 0x1000
      (⟨0x1000, 0x2000, 0x2000, 0x2000, 2⟩ : EarlyAllocator)
      [Ev.bytes 0x2000 0 1, Ev.bytes 0x1000 0x1000 1] :=
    Reached.alloc_ok _ _ 0 1 0 0x2000
      (⟨0x1000, 0x2000, 0x2000, 0x2000, 2⟩ : EarlyAllocator)
      hr1 rfl (by decide) (by decide) (by decide)
  have hc := (h 0x1000 _ _ hr2 0x2000 0 1 (List.Mem.head _)).1.2
  exact absurd hc (by decide)

/-- C4 (amended): restricted to allocations of at least one byte, every
address returned by a successful `alloc` lies within `[start, end)` (its
whole extent lies below `b_pos`), is a multiple of the requested align,
and all recorded extents — byte and page — are pairwise disjoint.  (A
zero-size `alloc` can return `end` itself when the region is exhausted;
its empty extent is still disjoint from everything.) -/
theorem c4_alloc_extents (PAGE_SIZE : Nat) (s : EarlyAllocator)
    (log : List Ev) (h : Reached PAGE_SIZE s log) :
    (∀ a sz al, Ev.bytes a sz al ∈ log →
      s.start ≤ a ∧ a + sz ≤ s.b_pos ∧ al ∣ a ∧
        (1 ≤ sz → a < s.end_)) ∧
    List.Pairwise (extDisj PAGE_SIZE) log := by
  obtain ⟨h1, h2, h3, h4, hbytes, hpages, hpw⟩ := reached_good h
  constructor
  · intro a sz al hm
    obtain ⟨hb1, hb2, hb3⟩ := hbytes a sz al hm
    refine ⟨hb1, hb2, hb3, fun hsz => ?_⟩
    omega
  · refine List.Pairwise.imp_of_mem ?_ hpw
    intro e e' he he' hord
    cases e with
    | bytes a sz al =>
        cases e' with
        | bytes a' sz' al' =>
            have hord' : a' + sz' ≤ a := hord
            exact Or.inr hord'
        | pages a' np' al' =>
            have hbb := (hbytes a sz al he).2.1
            have hpp := (hpages a' np' al' he').1
            refine Or.inl ?_
            show a + sz ≤ a'
            omega
    | pages a np al =>
        cases e' with
        | bytes a' sz' al' =>
            have hbb := (hbytes a' sz' al' he').2.1
            have hpp := (hpages a np al he).1
            refine Or.inr ?_
            show a' + sz' ≤ a
            omega
        | pages a' np' al' =>
            have hord' : a + np * PAGE_SIZE ≤ a' := hord
            exact Or.inl hord'

/-- Witness for C4 (amended) on the trace `init(0x1000, 0x1000)`;
`alloc(0x1000, 1)`. -/
theorem c4_alloc_extents_witness :
    ((∀ a sz al,
      Ev.bytes a sz al ∈ [Ev.bytes 0x1000 0x1000 1] →
      (⟨0x1000, 0x2000, 0x2000, 0x2000, 1⟩ : EarlyAllocator).start ≤ a ∧
      a + sz ≤ (⟨0x1000, 0x2000, 0x2000, 0x2000, 1⟩ : EarlyAllocator).b_pos ∧
      al ∣ a ∧
      (1 ≤ sz → a < (⟨0x1000, 0x2000, 0x2000, 0x2000, 1⟩ : EarlyAllocator).end_)) ∧
    List.Pairwise (extDisj 0x1000) [Ev.bytes 0x1000 0x1000 1]) :=
  c4_alloc_extents 0x1000
    (⟨0x1000, 0x2000, 0x2000, 0x2000, 1⟩ : EarlyAllocator)
    [Ev.bytes 0x1000 0x1000 1]
    (Reached.alloc_ok demo [] 0x1000 1 0 0x1000
      (⟨0x1000, 0x2000, 0x2000, 0x2000, 1⟩ : EarlyAllocator)
      (Reached.init_step EarlyAllocator.new 0x1000 0x1000 (by decide))
      rfl (by decide) (by decide) (by decide))

/-- C5: for every state, a byte allocation whose computed `new_end`
exceeds `p_pos` returns the insufficient-space error with the state
exactly as it was, and, independently, a page allocation whose computed
`new_pos` falls below `b_pos` returns the insufficient-space error with
the state exactly as it was (start, end, b_pos, p_pos and count all
unchanged; the two failure conditions are separate implications, so each
half applies on its own to any state). -/
theorem c5_failure_atomic (PAGE_SIZE : Nat) (s : EarlyAllocator)
    (size align k num_pages align_pow2 k2 : Nat)
    (_hk : align = 2 ^ k) (_hk2 : align_pow2 = 2 ^ k2) :
    (s.p_pos < bytes_new_pos s align + size →
      alloc s size align = (Except.error AllocError.NoMemory, s)) ∧
    (pages_new_end s align_pow2 - num_pages * PAGE_SIZE < s.b_pos →
      alloc_pages PAGE_SIZE s num_pages align_pow2
        = (Except.error AllocError.NoMemory, s)) := by
  constructor
  · intro hb
    simp only [alloc]
    rw [if_neg (by omega)]
  · intro hp
    simp only [alloc_pages]
    rw [if_neg (by omega)]

/-- Witness for C5: after `init(0x1000, 0x1000)`, `alloc(0x2000, 1)` and
`alloc_pages(2, 1)` (with `PAGE_SIZE = 0x1000`) both fail atomically. -/
theorem c5_failure_atomic_witness :
    ((1 : Nat) = 2 ^ 0 ∧
      demo.p_pos < bytes_new_pos demo 1 + 0x2000 ∧
      pages_new_end demo 1 - 2 * 0x1000 < demo.b_pos) ∧
    (alloc demo 0x2000 1 = (Except.error AllocError.NoMemory, demo) ∧
      alloc_pages 0x1000 demo 2 1
        = (Except.error AllocError.NoMemory, demo)) :=
  ⟨⟨rfl, by decide, by decide⟩,
    ⟨(c5_failure_atomic 0x1000 demo 0x2000 1 0 2 1 0 rfl rfl).1 (by decide),
      (c5_failure_atomic 0x1000 demo 0x2000 1 0 2 1 0 rfl rfl).2
        (by decide)⟩⟩

/-- Counterexample to C6 as stated: with `PAGE_SIZE = 3`, after
`init(0, 20)` the call `alloc_pages(1, 4)` succeeds and returns 13,
which is a multiple of neither `PAGE_SIZE = 3` nor `align_pow2 = 4`
(the code aligns `new_end`, not the returned `new_pos`). -/
theorem c6_counterexample : ¬ C6_stated := by
  intro h
  have hr0 : Reached 3 (EarlyAllocator.init EarlyAllocator.new 0 20) [] :=
    Reached.init_step EarlyAllocator.new 0 20 (by decide)
  have hr1 : Reached 3 (⟨0, 20, 0, 13, 0⟩ : EarlyAllocator)
      [Ev.pages 13 1 4] :=
    Reached.pages_ok _ [] 1 4 2 13 (⟨0, 20, 0, 13, 0⟩ : EarlyAllocator)
      hr0 rfl (by decide) (by decide) (by decide)
  have hnp : ∀ a np al, Ev.pages a np al ∈ [Ev.pages 13 1 4] → 1 ≤ np := by
    intro a np al hm
    rcases List.mem_cons.mp hm with hm1 | hm1
    · injection hm1 with e1 e2 e3
      omega
    · cases hm1
  have hc := (h 3 _ _ hr1 (by decide) hnp).2 13 1 4 (List.Mem.head _)
  exact absurd hc.1 (by decide)

/-- C6 (amended): successful `alloc_pages` calls (each with
`num_pages ≥ 1`, `PAGE_SIZE ≥ 1` and power-of-two alignments) return
strictly decreasing addresses, and each returned address `a` satisfies
`align_pow2 ∣ a + num_pages * PAGE_SIZE` (the code aligns the top of
the block, not its base); in particular `a` is a multiple of
`align_pow2` whenever `align_pow2` divides the block size
`num_pages * PAGE_SIZE`.  The address need not be a multiple of
`PAGE_SIZE`. -/
theorem c6_pages_monotone (PAGE_SIZE : Nat) (s : EarlyAllocator)
    (log : List Ev) (h : Reached PAGE_SIZE s log) (hPS : 1 ≤ PAGE_SIZE)
    (hnp : ∀ a np al, Ev.pages a np al ∈ log → 1 ≤ np) :
    List.Pairwise pagesDecr log ∧
    ∀ a np al, Ev.pages a np al ∈ log →
      al ∣ (a + np * PAGE_SIZE) ∧
      (al ∣ np * PAGE_SIZE → al ∣ a) := by
  obtain ⟨h1, h2, h3, h4, hbytes, hpages, hpw⟩ := reached_good h
  constructor
  · refine List.Pairwise.imp_of_mem ?_ hpw
    intro e e' he he' hord
    cases e with
    | bytes a sz al => cases e' <;> trivial
    | pages a np al =>
        cases e' with
        | bytes a' sz' al' => trivial
        | pages a' np' al' =>
            have hord' : a + np * PAGE_SIZE ≤ a' := hord
            have hn := hnp a np al he
            have hmul : 1 * 1 ≤ np * PAGE_SIZE := Nat.mul_le_mul hn hPS
            show a < a'
            omega
  · intro a np al hm
    obtain ⟨hp1, hp2, hp3⟩ := hpages a np al hm
    refine ⟨hp3, fun hdvd => ?_⟩
    have hsub := Nat.dvd_sub' hp3 hdvd
    rwa [Nat.add_sub_cancel] at hsub

/-- Witness for C6 (amended) on the trace `init(0x2000, 0x2000)`;
`alloc_pages(1, 0x1000)` with `PAGE_SIZE = 0x1000`. -/
theorem c6_pages_monotone_witness :
    ((1 : Nat) ≤ 0x1000 ∧
      (∀ a np al,
        Ev.pages a np al ∈ [Ev.pages 0x2000 1 0x1000] → 1 ≤ np)) ∧
    (List.Pairwise pagesDecr [Ev.pages 0x2000 1 0x1000] ∧
      ∀ a np al, Ev.pages a np al ∈ [Ev.pages 0x2000 1 0x1000] →
        al ∣ (a + np * 0x1000) ∧ (al ∣ np * 0x1000 → al ∣ a)) :=
  ⟨⟨by decide, by
      intro a np al hm
      rcases List.mem_cons.mp hm with hm1 | hm1
      · injection hm1 with e1 e2 e3
        omega
      · cases hm1⟩,
    c6_pages_monotone 0x1000
      (⟨0x2000, 0x4000, 0x2000, 0x2000, 0⟩ : EarlyAllocator)
      [Ev.pages 0x2000 1 0x1000]
      (Reached.pages_ok (EarlyAllocator.init EarlyAllocator.new 0x2000 0x2000)
        [] 1 0x1000 12 0x2000
        (⟨0x2000, 0x4000, 0x2000, 0x2000, 0⟩ : EarlyAllocator)
        (Reached.init_step EarlyAllocator.new 0x2000 0x2000 (by decide))
        rfl (by decide) (by decide) (by decide))
      (by decide)
      (by
        intro a np al hm
        rcases List.mem_cons.mp hm with hm1 | hm1
        · injection hm1 with e1 e2 e3
          omega
        · cases hm1)⟩

/-- C7: any number of `dealloc` / `dealloc_pages` calls, in any order,
leave the whole state (hence every field, including `count`) unchanged,
and therefore leave `used_bytes`, `available_bytes`, `used_pages` and
`available_pages` unchanged. -/
theorem c7_dealloc_noop (PAGE_SIZE : Nat) (s : EarlyAllocator)
    (calls : List DeallocCall) :
    run_deallocs s calls = s ∧
    (run_deallocs s calls).count = s.count ∧
    used_bytes (run_deallocs s calls) = used_bytes s ∧
    available_bytes (run_deallocs s calls) = available_bytes s ∧
    used_pages PAGE_SIZE (run_deallocs s calls)
      = used_pages PAGE_SIZE s ∧
    available_pages PAGE_SIZE (run_deallocs s calls)
      = available_pages PAGE_SIZE s := by
  have h : ∀ cs : List DeallocCall, ∀ t : EarlyAllocator,
      run_deallocs t cs = t := by
    intro cs
    induction cs with
    | nil => intro t; rfl
    | cons c rest ih =>
        intro t
        cases c with
        | bytes p sz al => exact ih (dealloc t p sz al)
        | pages p np => exact ih (dealloc_pages t p np)
  refine ⟨h calls s, ?_, ?_, ?_, ?_, ?_⟩ <;> rw [h calls s]

/-- C8: the statistics accessors compute exactly the spec's formulas
(`total_bytes = end - start`, `used_bytes = (b_pos - start) + (end -
p_pos)`, `available_bytes = p_pos - b_pos`, `total_pages = (end - start)
/ PAGE_SIZE` truncated, `used_pages = ceil((end - p_pos) / PAGE_SIZE)`,
`available_pages = floor((p_pos - b_pos) / PAGE_SIZE)`); they are pure
functions of the state, so they mutate nothing by construction. -/
theorem c8_accessor_formulas (PAGE_SIZE : Nat) (s : EarlyAllocator)
    (hPS : 1 ≤ PAGE_SIZE) :
    total_bytes s = s.end_ - s.start ∧
    used_bytes s = (s.b_pos - s.start) + (s.end_ - s.p_pos) ∧
    available_bytes s = s.p_pos - s.b_pos ∧
    total_pages PAGE_SIZE s = (s.end_ - s.start) / PAGE_SIZE ∧
    used_pages PAGE_SIZE s
      = spec_ceil_div (s.end_ - s.p_pos) PAGE_SIZE ∧
    available_pages PAGE_SIZE s = (s.p_pos - s.b_pos) / PAGE_SIZE :=
  ⟨rfl, rfl, rfl, rfl, add_sub_one_div_eq_ceil _ _ hPS, rfl⟩

/-- Witness for C8 at `PAGE_SIZE = 0x1000`, `s = demo`. -/
theorem c8_accessor_formulas_witness :
    (1 : Nat) ≤ 0x1000 ∧
    (total_bytes demo = demo.end_ - demo.start ∧
      used_bytes demo = (demo.b_pos - demo.start) + (demo.end_ - demo.p_pos) ∧
      available_bytes demo = demo.p_pos - demo.b_pos ∧
      total_pages 0x1000 demo = (demo.end_ - demo.start) / 0x1000 ∧
      used_pages 0x1000 demo = spec_ceil_div (demo.end_ - demo.p_pos) 0x1000 ∧
      available_pages 0x1000 demo = (demo.p_pos - demo.b_pos) / 0x1000) :=
  ⟨by decide, c8_accessor_formulas 0x1000 demo (by decide)⟩

/-- C9: `add_memory` always returns the no-memory error and leaves the
state unchanged; it never succeeds. -/
theorem c9_add_memory_always_fails (s : EarlyAllocator)
    (start_vaddr size : Nat) :
    add_memory s start_vaddr size
      = (Except.error AllocError.NoMemory, s) := rfl

/-- C10: on a reachable state whose region starts at a nonzero address,
a successful `alloc` returns an address at or above the pre-call `b_pos`
(the aligned position is rounded up, never down), hence never the null
address, so the source's unchecked `NonNull::new_unchecked(new_pos)`
never wraps null. -/
theorem c10_alloc_nonnull (PAGE_SIZE : Nat) (s : EarlyAllocator)
    (log : List Ev) (size align k a : Nat) (s' : EarlyAllocator)
    (hreach : Reached PAGE_SIZE s log)
    (hstart : 1 ≤ s.start)
    (hk : align = 2 ^ k)
    (hov : s.b_pos + (align - 1) < USIZE_LIMIT)
    (heq : alloc s size align = (Except.ok a, s')) :
    s.start ≤ s.b_pos ∧ s.b_pos ≤ a ∧ a ≠ 0 := by
  have hg := reached_good hreach
  have hup : s.b_pos ≤ bytes_new_pos s align :=
    bytes_new_pos_ge s align k hk hov
  by_cases hcond : bytes_new_pos s align + size ≤ s.p_pos
  · simp only [alloc] at heq
    rw [if_pos hcond] at heq
    injection heq with hfst _
    injection hfst with ha
    subst ha
    have hlo := hg.h1
    exact ⟨hlo, hup, by omega⟩
  · simp only [alloc] at heq
    rw [if_neg hcond] at heq
    injection heq with hfst _
    injection hfst

/-- Witness for C10: after `init(0x1000, 0x1000)`, `alloc(64, 8)`
returns `0x1000 ≠ 0`. -/
theorem c10_alloc_nonnull_witness :
    (1 ≤ demo.start ∧ (8 : Nat) = 2 ^ 3 ∧
      demo.b_pos + (8 - 1) < USIZE_LIMIT ∧
      alloc demo 64 8
        = (Except.ok 0x1000,
           (⟨0x1000, 0x2000, 0x1040, 0x2000, 1⟩ : EarlyAllocator))) ∧
    (demo.start ≤ demo.b_pos ∧ demo.b_pos ≤ 0x1000 ∧ (0x1000 : Nat) ≠ 0) :=
  ⟨⟨by decide, rfl, by decide, by decide⟩,
    c10_alloc_nonnull 0x1000 demo [] 64 8 3 0x1000
      (⟨0x1000, 0x2000, 0x1040, 0x2000, 1⟩ : EarlyAllocator)
      (Reached.init_step EarlyAllocator.new 0x1000 0x1000 (by decide))
      (by decide) rfl (by decide) (by decide)⟩

end BumpAllocator
